import Mathlib

/-!
# Verification of the csv2pdf CLI's CSV validation and formatting logic

This file is a shallow embedding, in Lean 4, of the data-validation core of
`src/main.py` (a CSV → PDF receipt generator): the price and quantity field
parsers, the CSV loader (`read_csv_rows`), the delimiter detector and the
template placeholder check (`ensure_placeholders`).  Python strings are
modelled as `List Char`, Python `Decimal` values as exact rationals together
with the non-finite values `NaN` and `±Infinity`, and fallible code as
`Except`.  Exceptions that the Python code does *not* catch (and which
therefore escape `parse_price`/`read_csv_rows` as non-domain errors) are
modelled by the `Failure.uncaught` constructor.

Modelling conventions, noted once here:
* Character classes (whitespace, digits, word characters, lower-casing) are
  modelled by their ASCII behaviour, plus the Latin-1 superscript digits
  `¹ ² ³` where the difference between Python's `str.isdigit` and `int()`
  matters.  Python's classes are full Unicode; the extra code points do not
  change any branch structure of the translated code.
* Python `Decimal` arithmetic is exact rational arithmetic here; the
  28-significant-digit context of Python shows up only in `quantize`, which
  raises `InvalidOperation` when the quantized coefficient needs more than
  28 digits, and that check is modelled faithfully (`quantizeHalfUp2`).
* CSV field quoting is not modelled: the spec never mentions quotes and no
  claim involves them.  A line is split at every delimiter character.
-/

deriving instance DecidableEq for Except

namespace Csv2Pdf

/-- Python strings are modelled as lists of characters. -/
abbrev PyStr := List Char

/-! ## Text utilities (`str.strip`, `str.lower`, splitting) -/

/-- Python whitespace for `str.strip` (ASCII part of the Unicode class). -/
def pyIsSpace (c : Char) : Bool :=
  c = ' ' || c = '\t' || c = '\n' || c = '\r' || c = '\x0b' || c = '\x0c'

/-- `str.strip()`: remove leading and trailing whitespace. -/
def trimL (s : PyStr) : PyStr :=
  ((s.dropWhile pyIsSpace).reverse.dropWhile pyIsSpace).reverse

/-- `str.lower()` (ASCII behaviour). -/
def toLowerL (s : PyStr) : PyStr := s.map Char.toLower

/-- ASCII decimal digit, Python's `\d` restricted to ASCII. -/
def isAsciiDigit (c : Char) : Bool := c.isDigit

/-- Numeric value of a string of ASCII digits (most significant first). -/
def natOfDigits (s : PyStr) : ℕ :=
  s.foldl (fun a c => 10 * a + (c.toNat - 48)) 0

/-- Code-point lexicographic comparison, Python's `<` on `str` (the order
`sorted` uses). -/
def strLtB : PyStr → PyStr → Bool
  | _, [] => false
  | [], _ :: _ => true
  | a :: as, b :: bs =>
    if a.toNat < b.toNat then true
    else if a = b then strLtB as bs
    else false

/-- `strLtB` as a relation. -/
def strLt (a b : PyStr) : Prop := strLtB a b = true

instance : DecidableRel strLt :=
  fun a b => inferInstanceAs (Decidable (strLtB a b = true))

/-! ## Errors

`Err` enumerates the `CliError` raise sites of `main.py` that the claims
mention (each constructor corresponds to one distinct user-facing message).
`PyExc` models Python exceptions that are *not* caught anywhere in
`main.py` and therefore escape as non-domain ("Неожиданная ошибка")
failures. -/

inductive Err
  | emptyFile
  | delimiterError
  | noHeader
  | missingColumns (missing : List PyStr)
  | emptyProduct
  | priceNotSpecified
  | priceCommaNoDot
  | priceInvalid
  | priceNegative
  | qtyNotSpecified
  | qtyNotDigits
  | noData
  deriving DecidableEq, Repr

/-- Python exceptions never caught by the program (non-domain failures). -/
inductive PyExc
  | invalidOperation
  | valueError
  deriving DecidableEq, Repr

inductive Failure
  | cli (e : Err)
  | uncaught (e : PyExc)
  deriving DecidableEq, Repr

/-- The `FormatError`s of the spec: the `CliError`s raised by the two field
parsers. -/
def Err.isFormatError : Err → Bool
  | .priceNotSpecified | .priceCommaNoDot | .priceInvalid | .priceNegative
  | .qtyNotSpecified | .qtyNotDigits => true
  | _ => false

/-! ## Python `Decimal`: string conversion, comparison, `quantize`

A finite `Decimal` is a coefficient times a power of ten.  `Dec n s`
denotes the exact value `n / 10^s`; this mirrors `Decimal`'s own
coefficient/exponent representation and keeps every operation in integer
arithmetic.  The representation is not normalised (`⟨150, 2⟩` is `1.50`),
exactly like `Decimal`, but every value the loader stores has been
quantized to `scale = 2`, so equality of quantized values is structural. -/

/-- A finite Python `Decimal` value: `num / 10^scale`. -/
structure Dec where
  num : ℤ
  scale : ℕ
  deriving DecidableEq, Repr

/-- The exact rational value of a `Dec`. -/
def Dec.toRat (d : Dec) : ℚ := (d.num : ℚ) / (10 : ℚ) ^ d.scale

/-- A Python `Decimal` as far as `parse_price` can observe it: a finite
value, an infinity, or a (quiet or signalling) NaN. -/
inductive PyDec
  | fin (d : Dec)
  | inf (neg : Bool)
  | nan
  deriving DecidableEq, Repr

/-- Parse the numeric (non-special) part of a decimal string:
`digits [. digits] [(e|E) [sign] digits]`, at least one digit before the
exponent marker.  The value is `(intpart ++ fracpart) × 10^(exp - |fracpart|)`. -/
def parseUnsignedDec (s : PyStr) : Option Dec :=
  let (ip, r1) := s.span isAsciiDigit
  let (fp, r2) :=
    match r1 with
    | '.' :: t => t.span isAsciiDigit
    | _ => ([], r1)
  if ip.isEmpty && fp.isEmpty then none
  else
    let expOpt : Option Int :=
      match r2 with
      | [] => some 0
      | e :: t =>
        if e = 'e' || e = 'E' then
          let (eneg, t2) :=
            match t with
            | '+' :: u => (false, u)
            | '-' :: u => (true, u)
            | u => (false, u)
          if t2.isEmpty || !t2.all isAsciiDigit then none
          else some (if eneg then -(natOfDigits t2 : Int) else (natOfDigits t2 : Int))
        else none
    match expOpt with
    | none => none
    | some e =>
      let coeff : ℕ := natOfDigits (ip ++ fp)
      let e2 : Int := e - fp.length
      some (if 0 ≤ e2 then ⟨(coeff : ℤ) * (10 : ℤ) ^ e2.toNat, 0⟩
            else ⟨(coeff : ℤ), (-e2).toNat⟩)

/-- `Decimal(text)`: strip whitespace, remove all underscores (a CPython
quirk: underscores are deleted wherever they occur), then match
`[sign] (number | inf | infinity | [s]nan[digits])`, case-insensitively.
`none` models the `InvalidOperation` that `parse_price` catches and turns
into a `CliError`. -/
def pyDecimalOfString (s0 : PyStr) : Option PyDec :=
  let s := trimL (s0.filter (fun c => c ≠ '_'))
  let (neg, r) :=
    match s with
    | '+' :: t => (false, t)
    | '-' :: t => (true, t)
    | t => (false, t)
  let rl := toLowerL r
  if rl = "inf".data || rl = "infinity".data then some (.inf neg)
  else if (match rl with
           | 'n' :: 'a' :: 'n' :: t => t.all isAsciiDigit
           | 's' :: 'n' :: 'a' :: 'n' :: t => t.all isAsciiDigit
           | _ => false) then some .nan
  else (parseUnsignedDec r).map
    (fun d => .fin (if neg then ⟨-d.num, d.scale⟩ else d))

/-- `value < 0` on a `Decimal`: ordering a NaN raises `InvalidOperation`
(modelled as `none`); `parse_price` does not catch it. -/
def decLtZero : PyDec → Option Bool
  | .fin d => some (decide (d.num < 0))
  | .inf neg => some neg
  | .nan => none

/-- Round `n / k` (with `k > 0`) to the nearest integer, ties away from
zero — Python's `ROUND_HALF_UP`.  `⌊n/k + 1/2⌋ = (2n + k).fdiv (2k)`. -/
def roundHalfUpDiv (n k : ℤ) : ℤ :=
  if n < 0 then -((2 * (-n) + k).fdiv (2 * k)) else (2 * n + k).fdiv (2 * k)

/-- The coefficient of `d` rescaled to two fractional digits with
half-up rounding: the result of `d.quantize(Decimal("0.01"),
rounding=ROUND_HALF_UP)` is `quantCoeff2 d / 100`. -/
def Dec.quantCoeff2 (d : Dec) : ℤ :=
  if d.scale ≤ 2 then d.num * (10 : ℤ) ^ (2 - d.scale)
  else roundHalfUpDiv d.num ((10 : ℤ) ^ (d.scale - 2))

/-- `Decimal.quantize(Decimal("0.01"), rounding=ROUND_HALF_UP)` as a total
function: round half-up to two fractional digits. -/
def quant2 (d : Dec) : Dec := ⟨d.quantCoeff2, 2⟩

/-- A coefficient fits the default decimal context iff it has at most 28
digits, i.e. its absolute value is below `10^28`. -/
def contextCoeffBound : ℕ := 10 ^ 28

/-- `quantize` with the context check: it raises `InvalidOperation`
(`none`) when the quantized coefficient needs more than the context's 28
digits. -/
def quantizeHalfUp2 (d : Dec) : Option Dec :=
  if d.quantCoeff2.natAbs < contextCoeffBound then some (quant2 d) else none

/-- `quantize` on a general `Decimal`: quantizing an infinity raises
`InvalidOperation` (`parse_price` reaches this only after `value < 0` has
succeeded, which excludes NaN). -/
def decQuantize2 : PyDec → Option Dec
  | .fin d => quantizeHalfUp2 d
  | _ => none

/-! ## The field parsers (`parse_price`, `parse_qty`)

Both take an `Option PyStr`: `none` is Python's `None`, the value a
`csv.DictReader` delivers for a header column that is absent from a short
data row.  `(raw or "")` coerces both `None` and `""` to `""`. -/

/-- `parse_price` from `src/main.py`.  The `try` only wraps the
`Decimal(text)` conversion; `InvalidOperation` raised by `value < 0` (NaN
input) or by `quantize` (infinite or ≥ 10²⁶ values) escapes uncaught. -/
def parse_price (raw : Option PyStr) : Except Failure Dec :=
  let text := trimL (raw.getD [])
  if text.isEmpty then .error (.cli .priceNotSpecified)
  else if text.contains ',' && !text.contains '.' then .error (.cli .priceCommaNoDot)
  else
    match pyDecimalOfString text with
    | none => .error (.cli .priceInvalid)
    | some d =>
      match decLtZero d with
      | none => .error (.uncaught .invalidOperation)
      | some true => .error (.cli .priceNegative)
      | some false =>
        match decQuantize2 d with
        | none => .error (.uncaught .invalidOperation)
        | some v => .ok v

/-- Python's `str.isdigit`: characters with Unicode `Numeric_Type` `Digit`
or `Decimal`.  Modelled for ASCII plus the Latin-1 superscript digits
`¹ ² ³` (which are `Digit` but not `Decimal`); other non-ASCII characters
are treated as non-digits. -/
def pyCharIsDigit (c : Char) : Bool :=
  c.isDigit || c = '¹' || c = '²' || c = '³'

/-- `int(text)` on a string whose characters all satisfy `str.isdigit`:
it succeeds exactly when every character is a *decimal* digit; a
digit-classified character without a decimal value (such as `²`) makes it
raise `ValueError`, modelled as `none`. -/
def pyIntDigits (s : PyStr) : Option ℕ :=
  if s.all isAsciiDigit then some (natOfDigits s) else none

/-- `parse_qty` from `src/main.py`.  `int(text)` is not inside any `try`,
so its `ValueError` escapes uncaught. -/
def parse_qty (raw : Option PyStr) : Except Failure ℕ :=
  let text := trimL (raw.getD [])
  if text.isEmpty then .error (.cli .qtyNotSpecified)
  else if !text.all pyCharIsDigit then .error (.cli .qtyNotDigits)
  else
    match pyIntDigits text with
    | some n => .ok n
    | none => .error (.uncaught .valueError)

/-! ## Splitting text into lines and fields -/

/-- Split a character list at every occurrence of `d` (like
`str.split(d)`: always at least one piece, empty pieces kept). -/
def splitCh (d : Char) : List Char → List (List Char)
  | [] => [[]]
  | c :: cs =>
    match splitCh d cs with
    | [] => [[]]
    | l :: ls => if c = d then [] :: l :: ls else (c :: l) :: ls

/-- Join pieces with the separator `d` (inverse of `splitCh`). -/
def joinCh (d : Char) : List (List Char) → List Char
  | [] => []
  | [l] => l
  | l :: ls => l ++ d :: joinCh d ls

/-- Number of occurrences of `d`. -/
def countCh (d : Char) (l : List Char) : ℕ := (l.filter (fun c => c = d)).length

/-- The CSV text for a table of fields: lines joined by `'\n'`, fields of
each line joined by the delimiter `d`. -/
def csvText (d : Char) (table : List (List PyStr)) : PyStr :=
  joinCh '\n' (table.map (joinCh d))

/-! ## Delimiter detection -/

/-- One candidate delimiter is structurally consistent with a sample when
every line contains the same, positive number of occurrences of it. -/
def consistentDelim (d : Char) (ls : List (List Char)) : Bool :=
  match ls with
  | [] => false
  | l :: rest => (1 ≤ countCh d l) && rest.all (fun m => countCh d m = countCh d l)

/-- Modelled from the spec: `detect_delimiter` in `src/main.py` delegates
the sniffing itself to the external stdlib collaborator `csv.Sniffer`
(whose code is not part of this repository); the spec describes it as
"structural sniffing (consistent field counts across lines)" over the two
candidates comma and semicolon, comma preferred.  Returns `none` where the
source raises the `DelimiterError` `CliError`. -/
def detect_delimiter (sample : PyStr) : Option Char :=
  let ls := (splitCh '\n' sample).filter (fun l => !l.isEmpty)
  if consistentDelim ',' ls then some ','
  else if consistentDelim ';' ls then some ';'
  else none

/-! ## The `csv.DictReader` row model

`csv.reader` turns each physical line into a list of fields (a blank line
becomes the empty row `[]`, which `DictReader` skips); `DictReader` then
builds `dict(zip(fieldnames, row))`, padding missing cells with the
`restval` default `None` and dropping extra cells (they go under the
non-string `restkey`).  Duplicate fieldnames: the last occurrence wins,
as in a Python dict built by repeated insertion. -/

/-- Fields of one physical line: a blank line is the empty row. -/
def csvParseLine (d : Char) (line : PyStr) : List PyStr :=
  if line.isEmpty then [] else splitCh d line

/-- `zip(fieldnames, row)` padded with `None` up to the header length. -/
def zipPad (fn row : List PyStr) : List (PyStr × Option PyStr) :=
  fn.zip (row.map some ++ List.replicate (fn.length - row.length) none)

/-- `row.get(key)` on the `DictReader` dict: outer `none` = key absent,
`some none` = key present with value `None` (a missing cell). -/
def dictGet (fn row : List PyStr) (key : PyStr) : Option (Option PyStr) :=
  ((zipPad fn row).reverse.find? (fun p => p.1 == key)).map (fun p => p.2)

/-- `row.get(key, "")`: the default only applies when the key is absent. -/
def dictGetDefault (fn row : List PyStr) (key : PyStr) : Option PyStr :=
  match dictGet fn row key with
  | none => some []
  | some v => v

def productKey : PyStr := "product".data
def priceKey : PyStr := "price".data
def qtyKey : PyStr := "qty".data

/-- The required column names, already in the alphabetical order that
`sorted` produces on the missing set. -/
def requiredCols : List PyStr := [priceKey, productKey, qtyKey]

/-! ## The loader (`read_csv_rows`) -/

/-- One line item as accumulated by `read_csv_rows` (the source stores
`price` and `line_total` as their fixed 2-decimal string renderings
`f"{...:.2f}"`; the model keeps the `Decimal` values those strings
render). -/
structure Item where
  product : PyStr
  price : Dec
  qty : ℕ
  line_total : Dec
  deriving DecidableEq, Repr

/-- The header names as used for the column check: stripped and
lower-cased (the row lookups below use the *original* names). -/
def headersOf (fn : List PyStr) : List PyStr :=
  fn.map (fun h => toLowerL (trimL h))

/-- The required columns absent from the header, in alphabetical order
(`sorted(required - headers)` in the source). -/
def missingOf (fn : List PyStr) : List PyStr :=
  requiredCols.filter (fun c => !(headersOf fn).contains c)

/-- Processing of one data row: product must be non-empty after
stripping, then price and qty are parsed, then
`line_total = (price * qty).quantize(Decimal("0.01"), ROUND_HALF_UP)`
(whose overflow `InvalidOperation` is uncaught). -/
def processRow (fn row : List PyStr) : Except Failure Item :=
  let product := trimL (((dictGet fn row productKey).join).getD [])
  if product.isEmpty then .error (.cli .emptyProduct)
  else
    match parse_price (dictGetDefault fn row priceKey) with
    | .error e => .error e
    | .ok price =>
      match parse_qty (dictGetDefault fn row qtyKey) with
      | .error e => .error e
      | .ok qty =>
        match quantizeHalfUp2 ⟨price.num * qty, price.scale⟩ with
        | none => .error (.uncaught .invalidOperation)
        | some lt => .ok ⟨product, price, qty, lt⟩

/-- Process the data rows in order, failing at the first bad row. -/
def processRows (fn : List PyStr) : List (List PyStr) → Except Failure (List Item)
  | [] => .ok []
  | row :: rest =>
    match processRow fn row with
    | .error e => .error e
    | .ok it =>
      match processRows fn rest with
      | .error e => .error e
      | .ok its => .ok (it :: its)

/-- The exact running total: every `line_total` has `scale = 2`, so the
`Decimal` accumulation `total += line_total` is the coefficient sum at
scale 2. -/
def sumLineTotals (items : List Item) : ℤ :=
  items.foldr (fun it a => it.line_total.num + a) 0

/-- The part of `read_csv_rows` after the physical lines have been split
into rows of fields: header checks, per-row processing, the `NoDataError`
check, and the final quantization of the total. -/
def loadRows (rows : List (List PyStr)) : Except Failure (List Item × Dec) :=
  match rows with
  | [] => .error (.cli .noHeader)
  | fn :: dataRows =>
    if fn.isEmpty then .error (.cli .noHeader)
    else if !(missingOf fn).isEmpty then .error (.cli (.missingColumns (missingOf fn)))
    else
      match processRows fn (dataRows.filter (fun r => !r.isEmpty)) with
      | .error e => .error e
      | .ok items =>
        if items.isEmpty then .error (.cli .noData)
        else
          match quantizeHalfUp2 ⟨sumLineTotals items, 2⟩ with
          | none => .error (.uncaught .invalidOperation)
          | some t => .ok (items, t)

/-- `read_csv_rows` from `src/main.py`, taking the file *content* (file
existence is an I/O concern outside the model): empty-file check,
delimiter detection, then `loadRows` on the split lines. -/
def read_csv_rows (content : PyStr) : Except Failure (List Item × Dec) :=
  if (trimL content).isEmpty then .error (.cli .emptyFile)
  else
    match detect_delimiter content with
    | none => .error (.cli .delimiterError)
    | some d => loadRows ((splitCh '\n' content).map (csvParseLine d))

/-! ## The template placeholder check (`ensure_placeholders`)

The source compiles, for each required name, the regular expression
`{{[^}]*\b(?:\w+\.)?NAME\b[^}]*}}` and searches the raw template text.
The matcher below implements exactly that pattern's search semantics:
a match is `{{`, then any `}`-free characters, then a word boundary, then
an optional `word-chars + '.'` qualifier, then the name, then a word
boundary, then any `}`-free characters, then `}}`.  `\w` is modelled as
ASCII alphanumerics and `_`. -/

/-- Python's `\w` (ASCII part). -/
def isWordChar (c : Char) : Bool := c.isAlphanum || c = '_'

/-- After the name has been consumed: `\b[^}]*}}` — the next character
must not be a word character, and the first `}` must be followed by a
second one. -/
def tailAfterName (rest : PyStr) : Bool :=
  match rest with
  | [] => false
  | c :: _ =>
    if isWordChar c then false
    else
      match rest.dropWhile (fun x => x ≠ '}') with
      | '}' :: '}' :: _ => true
      | _ => false

/-- Try to read `NAME\b[^}]*}}` at this position. -/
def tryNameAt (name rest : PyStr) : Bool :=
  if name.isPrefixOf rest then tailAfterName (rest.drop name.length) else false

/-- At a word-boundary position inside `{{ … }}`: try the bare name, or a
`\w+\.` qualifier followed by the name. -/
def afterBoundary (name rest : PyStr) : Bool :=
  tryNameAt name rest ||
    (match rest.span isWordChar with
     | (w, '.' :: r2) => !w.isEmpty && tryNameAt name r2
     | _ => false)

/-- Scan the `[^}]*` region after `{{`: at every position whose preceding
character is not a word character (a `\b` position), try the
name/qualifier; stop at the first `}`. -/
def scanInside (name : PyStr) : Char → PyStr → Bool
  | prev, [] => (!isWordChar prev) && afterBoundary name []
  | prev, c :: cs =>
    ((!isWordChar prev) && afterBoundary name (c :: cs)) ||
      (c ≠ '}' && scanInside name c cs)

/-- `re.search` of the placeholder pattern: try a match at every `{{`. -/
def searchPlaceholder (name : PyStr) : PyStr → Bool
  | [] => false
  | c :: cs =>
    (c = '{' && (match cs with
                 | c2 :: cs2 => c2 = '{' && scanInside name '{' cs2
                 | [] => false)) ||
      searchPlaceholder name cs

inductive TplFailure
  | missingPlaceholder (name : PyStr)
  deriving DecidableEq, Repr

/-- The required tokens, in the order the source checks them. -/
def requiredPlaceholders : List PyStr :=
  ["product".data, "price".data, "qty".data, "total".data]

def ensureList (text : PyStr) : List PyStr → Except TplFailure Unit
  | [] => .ok ()
  | n :: ns =>
    if searchPlaceholder n text then ensureList text ns
    else .error (.missingPlaceholder n)

/-- `ensure_placeholders` from `src/main.py`: fail on the first required
token with no matching placeholder. -/
def ensure_placeholders (text : PyStr) : Except TplFailure Unit :=
  ensureList text requiredPlaceholders

example : searchPlaceholder "total".data "\x7b\x7b total \x7d\x7d".data = true := by decide
example : searchPlaceholder "total".data "\x7b\x7b item.total \x7d\x7d".data = true := by decide
example : searchPlaceholder "total".data "\x7b\x7b subtotal \x7d\x7d".data = false := by decide
example : searchPlaceholder "total".data "\x7b\x7b x.subtotal \x7d\x7d".data = false := by decide
example :
    ensure_placeholders "\x7b\x7bproduct\x7d\x7d \x7b\x7bprice\x7d\x7d \x7b\x7bqty\x7d\x7d \x7b\x7btotal\x7d\x7d".data = .ok () := by decide
example :
    ensure_placeholders "\x7b\x7b product \x7d\x7d \x7b\x7b price \x7d\x7d \x7b\x7b qty \x7d\x7d \x7b\x7b subtotal \x7d\x7d".data =
      .error (.missingPlaceholder "total".data) := by decide
example :
    ensure_placeholders "\x7b\x7b product \x7d\x7d \x7b\x7b price \x7d\x7d \x7b\x7b qty \x7d\x7d \x7b\x7b sub.total \x7d\x7d".data =
      .ok () := by decide

/-! ## Sanity evaluations of the embedding on concrete inputs -/

example : parse_price (some "1.50".data) = .ok ⟨150, 2⟩ := by decide
example : parse_price (some " 12,50 ".data) = .error (.cli .priceCommaNoDot) := by decide
example : parse_price (some "-1.00".data) = .error (.cli .priceNegative) := by decide
example : parse_price (some "abc".data) = .error (.cli .priceInvalid) := by decide
example : parse_price (some "NaN".data) = .error (.uncaught .invalidOperation) := by decide
example : parse_price (some "Infinity".data) = .error (.uncaught .invalidOperation) := by decide
example : parse_price (some "-Infinity".data) = .error (.cli .priceNegative) := by decide
example : parse_price (some "1e2".data) = .ok ⟨10000, 2⟩ := by decide
example : parse_price (some "2.345".data) = .ok ⟨235, 2⟩ := by decide
example : parse_price (some "2.335".data) = .ok ⟨234, 2⟩ := by decide
example : parse_price (some "1e30".data) = .error (.uncaught .invalidOperation) := by decide
example : parse_price (some "1_0".data) = .ok ⟨1000, 2⟩ := by decide
example : parse_price none = .error (.cli .priceNotSpecified) := by decide
example : parse_qty (some "3".data) = .ok 3 := by decide
example : parse_qty (some "abc".data) = .error (.cli .qtyNotDigits) := by decide
example : parse_qty (some "1.5".data) = .error (.cli .qtyNotDigits) := by decide
example : parse_qty (some "-2".data) = .error (.cli .qtyNotDigits) := by decide
example : parse_qty (some "²".data) = .error (.uncaught .valueError) := by decide

example :
    read_csv_rows "product,price,qty\nApple,1.50,2\nBread,0.99,3".data =
      .ok ([⟨"Apple".data, ⟨150, 2⟩, 2, ⟨300, 2⟩⟩,
            ⟨"Bread".data, ⟨99, 2⟩, 3, ⟨297, 2⟩⟩], ⟨597, 2⟩) := by decide
example :
    read_csv_rows "product;price;qty\nApple;1.50;2\nBread;0.99;3".data =
      .ok ([⟨"Apple".data, ⟨150, 2⟩, 2, ⟨300, 2⟩⟩,
            ⟨"Bread".data, ⟨99, 2⟩, 3, ⟨297, 2⟩⟩], ⟨597, 2⟩) := by decide
example :
    read_csv_rows "product,price\nApple,1.50".data =
      .error (.cli (.missingColumns [qtyKey])) := by decide
example : read_csv_rows "product,price,qty\n".data = .error (.cli .noData) := by decide
example : read_csv_rows "   ".data = .error (.cli .emptyFile) := by decide
example : read_csv_rows "Product,Price,Qty\nApple,1.50,2".data =
    .error (.cli .emptyProduct) := by decide
example : read_csv_rows "product,price,qty\nApple,NaN,2".data =
    .error (.uncaught .invalidOperation) := by decide

/-! ## Helper lemmas -/

theorem splitCh_ne_nil (d : Char) (s : List Char) : splitCh d s ≠ [] := by
  induction s with
  | nil => simp [splitCh]
  | cons c cs ih =>
    simp only [splitCh]
    split
    · simp
    · split <;> simp

theorem splitCh_no_delim {d : Char} {s : List Char} (h : d ∉ s) : splitCh d s = [s] := by
  induction s with
  | nil => rfl
  | cons c cs ih =>
    have hc : ¬ c = d := by rintro rfl; exact h (List.mem_cons_self _ _)
    have hcs : d ∉ cs := fun hm => h (List.mem_cons_of_mem _ hm)
    simp only [splitCh, ih hcs]
    rw [if_neg hc]

theorem splitCh_append {d : Char} {f t : List Char} (hf : d ∉ f) :
    splitCh d (f ++ d :: t) = f :: splitCh d t := by
  induction f with
  | nil =>
    cases hsp : splitCh d t with
    | nil => exact absurd hsp (splitCh_ne_nil d t)
    | cons l ls => simp [splitCh, hsp]
  | cons c f' ih =>
    have hc : ¬ c = d := by rintro rfl; exact hf (List.mem_cons_self _ _)
    have hf' : d ∉ f' := fun hm => hf (List.mem_cons_of_mem _ hm)
    simp only [List.cons_append, splitCh, List.append_eq, ih hf']
    rw [if_neg hc]

theorem splitCh_joinCh {d : Char} {fs : List (List Char)} (hne : fs ≠ [])
    (hfree : ∀ f ∈ fs, d ∉ f) : splitCh d (joinCh d fs) = fs := by
  induction fs with
  | nil => exact absurd rfl hne
  | cons f fs' ih =>
    cases fs' with
    | nil => exact splitCh_no_delim (hfree f (List.mem_cons_self _ _))
    | cons g gs =>
      have hjoin : joinCh d (f :: g :: gs) = f ++ d :: joinCh d (g :: gs) := rfl
      rw [hjoin, splitCh_append (hfree f (List.mem_cons_self _ _))]
      rw [ih (by simp) (fun x hx => hfree x (List.mem_cons_of_mem _ hx))]

theorem not_mem_joinCh {c d : Char} {fs : List (List Char)} (hcd : c ≠ d)
    (hfree : ∀ f ∈ fs, c ∉ f) : c ∉ joinCh d fs := by
  induction fs with
  | nil => simp [joinCh]
  | cons f fs' ih =>
    cases fs' with
    | nil => exact hfree f (List.mem_cons_self _ _)
    | cons g gs =>
      intro hmem
      rcases List.mem_append.mp hmem with hl | hr
      · exact hfree f (List.mem_cons_self _ _) hl
      · rcases List.mem_cons.mp hr with rfl | hr'
        · exact hcd rfl
        · exact ih (fun x hx => hfree x (List.mem_cons_of_mem _ hx)) hr'

theorem mem_joinCh_head {c d : Char} {f : List Char} {fs : List (List Char)}
    (h : c ∈ f) : c ∈ joinCh d (f :: fs) := by
  cases fs with
  | nil => exact h
  | cons g gs => exact List.mem_append_left _ h

theorem mem_joinCh_self {d : Char} {fs : List (List Char)} (h : 2 ≤ fs.length) :
    d ∈ joinCh d fs := by
  match fs, h with
  | f :: g :: gs, _ =>
    exact List.mem_append_right _ (List.mem_cons_self _ _)

theorem countCh_eq_zero {d : Char} {l : List Char} (h : d ∉ l) : countCh d l = 0 := by
  unfold countCh
  rw [List.length_eq_zero]
  rw [List.filter_eq_nil_iff]
  intro c hc
  simp only [decide_eq_true_eq]
  rintro rfl
  exact h hc

theorem countCh_append (d : Char) (a b : List Char) :
    countCh d (a ++ b) = countCh d a + countCh d b := by
  simp [countCh, List.filter_append]

theorem countCh_cons_self (d : Char) (l : List Char) :
    countCh d (d :: l) = countCh d l + 1 := by
  simp [countCh]

theorem countCh_joinCh {d : Char} {fs : List (List Char)}
    (hfree : ∀ f ∈ fs, d ∉ f) (hne : fs ≠ []) :
    countCh d (joinCh d fs) = fs.length - 1 := by
  induction fs with
  | nil => exact absurd rfl hne
  | cons f fs' ih =>
    cases fs' with
    | nil => simp [joinCh, countCh_eq_zero (hfree f (List.mem_cons_self _ _))]
    | cons g gs =>
      have hjoin : joinCh d (f :: g :: gs) = f ++ d :: joinCh d (g :: gs) := rfl
      rw [hjoin, countCh_append, countCh_eq_zero (hfree f (List.mem_cons_self _ _)),
        countCh_cons_self, ih (fun x hx => hfree x (List.mem_cons_of_mem _ hx)) (by simp)]
      simp

theorem mem_dropWhile_of_not {p : Char → Bool} {c : Char} {s : List Char}
    (hc : c ∈ s) (hp : p c = false) : c ∈ s.dropWhile p := by
  induction s with
  | nil => cases hc
  | cons a t ih =>
    rw [List.dropWhile_cons]
    split
    · next ha =>
      rcases List.mem_cons.mp hc with rfl | hm
      · rw [hp] at ha; cases ha
      · exact ih hm
    · exact hc

theorem trimL_ne_nil {c : Char} {s : List Char} (hc : c ∈ s)
    (hp : pyIsSpace c = false) : trimL s ≠ [] := by
  unfold trimL
  intro h
  have h1 : c ∈ s.dropWhile pyIsSpace := mem_dropWhile_of_not hc hp
  have h2 : c ∈ (s.dropWhile pyIsSpace).reverse := List.mem_reverse.mpr h1
  have h3 : c ∈ (s.dropWhile pyIsSpace).reverse.dropWhile pyIsSpace :=
    mem_dropWhile_of_not h2 hp
  rw [List.reverse_eq_nil_iff.mp h] at h3
  cases h3

theorem quantizeHalfUp2_eq {d q : Dec} (h : quantizeHalfUp2 d = some q) : q = quant2 d := by
  unfold quantizeHalfUp2 at h
  split at h
  · exact (Option.some.inj h).symm
  · cases h

theorem processRow_ok_line_total {fn row : List PyStr} {it : Item}
    (h : processRow fn row = .ok it) :
    it.line_total = quant2 ⟨it.price.num * it.qty, it.price.scale⟩ := by
  simp only [processRow] at h
  split at h
  · cases h
  · split at h
    · cases h
    · split at h
      · cases h
      · split at h
        · cases h
        · next lt hq =>
          cases h
          simpa using quantizeHalfUp2_eq hq

theorem processRows_ok_line_totals {fn : List PyStr} {rows : List (List PyStr)}
    {items : List Item} (h : processRows fn rows = .ok items) :
    ∀ it ∈ items, it.line_total = quant2 ⟨it.price.num * it.qty, it.price.scale⟩ := by
  induction rows generalizing items with
  | nil =>
    cases h
    intro it hit
    cases hit
  | cons row rest ih =>
    unfold processRows at h
    split at h
    · cases h
    · next hrow =>
      split at h
      · cases h
      · next hrest =>
        cases h
        intro it hit
        rcases List.mem_cons.mp hit with rfl | hmem
        · exact processRow_ok_line_total hrow
        · exact ih hrest it hmem

/-! ## Claims -/

/-- C1: for every successfully loaded CSV, each item's `line_total` is
`unit_price × qty` rounded half-up to two decimals, and the receipt total
is the rounding, applied once after accumulation, of the exact sum of the
`line_total`s. -/
theorem read_csv_rows_line_totals (content : PyStr) (items : List Item) (t : Dec)
    (h : read_csv_rows content = .ok (items, t)) :
    (∀ it ∈ items, it.line_total = quant2 ⟨it.price.num * it.qty, it.price.scale⟩) ∧
    t = quant2 ⟨sumLineTotals items, 2⟩ := by
  unfold read_csv_rows at h
  split at h
  · cases h
  · split at h
    · cases h
    · unfold loadRows at h
      split at h
      · cases h
      · split at h
        · cases h
        · split at h
          · cases h
          · split at h
            · cases h
            · next hrows =>
              split at h
              · cases h
              · split at h
                · cases h
                · next hq =>
                  cases h
                  exact ⟨processRows_ok_line_totals hrows, quantizeHalfUp2_eq hq⟩

/-- C1 witness: the two-row example CSV loads with `3.00 = round(1.50×2)`,
`2.97 = round(0.99×3)` and total `5.97 = round(3.00 + 2.97)`. -/
theorem read_csv_rows_line_totals_witness :
    (∀ it ∈ [(⟨"Apple".data, ⟨150, 2⟩, 2, ⟨300, 2⟩⟩ : Item),
             ⟨"Bread".data, ⟨99, 2⟩, 3, ⟨297, 2⟩⟩],
       it.line_total = quant2 ⟨it.price.num * it.qty, it.price.scale⟩) ∧
    (⟨597, 2⟩ : Dec) =
      quant2 ⟨sumLineTotals [⟨"Apple".data, ⟨150, 2⟩, 2, ⟨300, 2⟩⟩,
                             ⟨"Bread".data, ⟨99, 2⟩, 3, ⟨297, 2⟩⟩], 2⟩ :=
  read_csv_rows_line_totals "product,price,qty\nApple,1.50,2\nBread,0.99,3".data
    _ _ (by decide)

/-- C2 counterexample: `"NaN"` is non-empty, has no comma, and is accepted
by `Decimal(...)`, but `value < 0` on a NaN raises an *uncaught*
`InvalidOperation`: the outcome is neither a `FormatError` nor a returned
value, refuting "no other outcome is possible". -/
theorem parse_price_nan_escape :
    parse_price (some "NaN".data) = .error (.uncaught .invalidOperation) := by decide

/-- C2 (amended): the price parser trims, then fails with `FormatError`
on empty text, comma-without-dot text, text `Decimal` rejects, and
negative values; a non-negative finite value within the 28-digit context
is returned rounded half-up to 2 digits; but text parsing as NaN, as
`+Infinity`, or as a value whose rounded coefficient needs more than 28
digits escapes with an uncaught `InvalidOperation`.  These cases are
exhaustive. -/
theorem parse_price_outcomes (raw : Option PyStr) :
    (trimL (raw.getD []) = [] →
        parse_price raw = .error (.cli .priceNotSpecified)) ∧
    (trimL (raw.getD []) ≠ [] →
      (',' ∈ trimL (raw.getD []) ∧ '.' ∉ trimL (raw.getD [])) →
        parse_price raw = .error (.cli .priceCommaNoDot)) ∧
    (trimL (raw.getD []) ≠ [] →
      ¬(',' ∈ trimL (raw.getD []) ∧ '.' ∉ trimL (raw.getD [])) →
      pyDecimalOfString (trimL (raw.getD [])) = none →
        parse_price raw = .error (.cli .priceInvalid)) ∧
    (∀ p, trimL (raw.getD []) ≠ [] →
      ¬(',' ∈ trimL (raw.getD []) ∧ '.' ∉ trimL (raw.getD [])) →
      pyDecimalOfString (trimL (raw.getD [])) = some p →
      decLtZero p = some true →
        parse_price raw = .error (.cli .priceNegative)) ∧
    (∀ d, trimL (raw.getD []) ≠ [] →
      ¬(',' ∈ trimL (raw.getD []) ∧ '.' ∉ trimL (raw.getD [])) →
      pyDecimalOfString (trimL (raw.getD [])) = some (.fin d) →
      ¬ d.num < 0 →
      d.quantCoeff2.natAbs < contextCoeffBound →
        parse_price raw = .ok (quant2 d)) ∧
    (trimL (raw.getD []) ≠ [] →
      ¬(',' ∈ trimL (raw.getD []) ∧ '.' ∉ trimL (raw.getD [])) →
      pyDecimalOfString (trimL (raw.getD [])) = some .nan →
        parse_price raw = .error (.uncaught .invalidOperation)) ∧
    (trimL (raw.getD []) ≠ [] →
      ¬(',' ∈ trimL (raw.getD []) ∧ '.' ∉ trimL (raw.getD [])) →
      pyDecimalOfString (trimL (raw.getD [])) = some (.inf false) →
        parse_price raw = .error (.uncaught .invalidOperation)) ∧
    (∀ d, trimL (raw.getD []) ≠ [] →
      ¬(',' ∈ trimL (raw.getD []) ∧ '.' ∉ trimL (raw.getD [])) →
      pyDecimalOfString (trimL (raw.getD [])) = some (.fin d) →
      ¬ d.num < 0 →
      ¬ d.quantCoeff2.natAbs < contextCoeffBound →
        parse_price raw = .error (.uncaught .invalidOperation)) ∧
    ((∃ e, parse_price raw = .error (.cli e) ∧ e.isFormatError = true) ∨
     (∃ v, parse_price raw = .ok v) ∨
     parse_price raw = .error (.uncaught .invalidOperation)) := by
  refine ⟨?_, ?_, ?_, ?_, ?_, ?_, ?_, ?_, ?_⟩
  · intro h1
    simp [parse_price, h1]
  · intro h1 h2
    simp [parse_price, h1, h2.1, h2.2]
  · intro h1 h2 h3
    simp [parse_price, h1, h2, h3]
  · intro p h1 h2 h3 h4
    simp [parse_price, h1, h2, h3, h4]
  · intro d h1 h2 h3 h4 h5
    simp [parse_price, h1, h2, h3, decLtZero, h4, decQuantize2, quantizeHalfUp2, h5]
  · intro h1 h2 h3
    simp [parse_price, h1, h2, h3, decLtZero]
  · intro h1 h2 h3
    simp [parse_price, h1, h2, h3, decLtZero, decQuantize2]
  · intro d h1 h2 h3 h4 h5
    simp [parse_price, h1, h2, h3, decLtZero, h4, decQuantize2, quantizeHalfUp2, h5]
  · by_cases h1 : trimL (raw.getD []) = []
    · exact Or.inl ⟨.priceNotSpecified, by simp [parse_price, h1], rfl⟩
    · by_cases h2 : ',' ∈ trimL (raw.getD []) ∧ '.' ∉ trimL (raw.getD [])
      · exact Or.inl ⟨.priceCommaNoDot, by simp [parse_price, h1, h2.1, h2.2], rfl⟩
      · cases h3 : pyDecimalOfString (trimL (raw.getD [])) with
        | none => exact Or.inl ⟨.priceInvalid, by simp [parse_price, h1, h2, h3], rfl⟩
        | some p =>
          cases p with
          | fin d =>
            by_cases h4 : d.num < 0
            · exact Or.inl ⟨.priceNegative,
                by simp [parse_price, h1, h2, h3, decLtZero, h4], rfl⟩
            · by_cases h5 : d.quantCoeff2.natAbs < contextCoeffBound
              · exact Or.inr (Or.inl ⟨quant2 d,
                  by simp [parse_price, h1, h2, h3, decLtZero, h4, decQuantize2,
                           quantizeHalfUp2, h5]⟩)
              · exact Or.inr (Or.inr
                  (by simp [parse_price, h1, h2, h3, decLtZero, h4, decQuantize2,
                            quantizeHalfUp2, h5]))
          | inf neg =>
            cases neg with
            | true => exact Or.inl ⟨.priceNegative,
                by simp [parse_price, h1, h2, h3, decLtZero], rfl⟩
            | false => exact Or.inr (Or.inr
                (by simp [parse_price, h1, h2, h3, decLtZero, decQuantize2]))
          | nan => exact Or.inr (Or.inr
              (by simp [parse_price, h1, h2, h3, decLtZero]))

/-- C2 witness: the three `FormatError` branches and the returned-value
branch of `parse_price_outcomes` at concrete inputs. -/
theorem parse_price_outcomes_witness :
    parse_price (some "12,50".data) = .error (.cli .priceCommaNoDot) ∧
    parse_price (some "-1.00".data) = .error (.cli .priceNegative) ∧
    parse_price (some "1.505".data) = .ok (quant2 ⟨1505, 3⟩) ∧
    parse_price (some "".data) = .error (.cli .priceNotSpecified) :=
  ⟨(parse_price_outcomes (some "12,50".data)).2.1 (by decide) (by decide),
   (parse_price_outcomes (some "-1.00".data)).2.2.2.1 (.fin ⟨-100, 2⟩)
     (by decide) (by decide) (by decide) (by decide),
   (parse_price_outcomes (some "1.505".data)).2.2.2.2.1 ⟨1505, 3⟩
     (by decide) (by decide) (by decide) (by decide) (by decide),
   (parse_price_outcomes (some "".data)).1 (by decide)⟩

/-- C3 counterexample: `'²'` (SUPERSCRIPT TWO) satisfies `str.isdigit`,
so the quantity parser does not reject it, but `int('²')` raises an
*uncaught* `ValueError`: the outcome is neither a `FormatError` nor the
integer value, refuting "no other outcome is possible". -/
theorem parse_qty_superscript_escape :
    parse_qty (some "²".data) = .error (.uncaught .valueError) := by decide

/-- C3 (amended): the quantity parser trims, fails with `FormatError` on
empty text and on text with a non-`isdigit` character, and returns the
integer value of text made of decimal digits — but text whose characters
all pass `str.isdigit` while some lack a decimal value (e.g. `'²'`)
escapes with an uncaught `ValueError` from `int(...)`. -/
theorem parse_qty_outcomes (raw : Option PyStr) :
    (trimL (raw.getD []) = [] →
        parse_qty raw = .error (.cli .qtyNotSpecified)) ∧
    (trimL (raw.getD []) ≠ [] →
      (trimL (raw.getD [])).all pyCharIsDigit = false →
        parse_qty raw = .error (.cli .qtyNotDigits)) ∧
    (trimL (raw.getD []) ≠ [] →
      (trimL (raw.getD [])).all isAsciiDigit = true →
        parse_qty raw = .ok (natOfDigits (trimL (raw.getD [])))) ∧
    ((trimL (raw.getD [])).all pyCharIsDigit = true →
      (trimL (raw.getD [])).all isAsciiDigit = false →
        parse_qty raw = .error (.uncaught .valueError)) := by
  refine ⟨?_, ?_, ?_, ?_⟩
  · intro h1
    simp [parse_qty, h1]
  · intro h1 h2
    simp [parse_qty, h1, h2]
  · intro h1 h2
    have hall : (trimL (raw.getD [])).all pyCharIsDigit = true := by
      rw [List.all_eq_true] at h2 ⊢
      intro c hc
      have := h2 c hc
      simp only [pyCharIsDigit, isAsciiDigit] at *
      simp [this]
    simp [parse_qty, h1, hall, pyIntDigits, h2]
  · intro h1 h2
    have h1' : trimL (raw.getD []) ≠ [] := by
      intro he
      rw [he] at h2
      cases h2
    simp [parse_qty, h1', h1, pyIntDigits, h2]

/-- C3 witness: the three reachable branches of `parse_qty_outcomes` at
concrete inputs. -/
theorem parse_qty_outcomes_witness :
    parse_qty (some " 42 ".data) = .ok 42 ∧
    parse_qty (some "abc".data) = .error (.cli .qtyNotDigits) ∧
    parse_qty none = .error (.cli .qtyNotSpecified) :=
  ⟨(parse_qty_outcomes (some " 42 ".data)).2.2.1 (by decide) (by decide),
   (parse_qty_outcomes (some "abc".data)).2.1 (by decide) (by decide),
   (parse_qty_outcomes none).1 (by decide)⟩

/-- C10: the price parser accepts exponent (scientific) notation: `"1e2"`
is not fixed-point dot-decimal text (it has no `'.'`), yet `parse_price`
succeeds and returns `100.00` (coefficient `10000` at scale 2) rather
than raising `FormatError`. -/
theorem parse_price_exponent :
    parse_price (some "1e2".data) = .ok ⟨10000, 2⟩ ∧
    '.' ∉ "1e2".data := by
  refine ⟨by decide, by decide⟩

/-- C4: the header check is case-insensitive, but the row lookups use the
literal lowercase keys against the *original* `DictReader` fieldnames, so
a CSV with header `Product,Price,Qty` passes the column check and then
fails with `EmptyProductError` on its first data row instead of loading
like its lowercase twin. -/
theorem read_csv_rows_capitalized_header_bug :
    read_csv_rows "product,price,qty\nApple,1.50,2".data =
      .ok ([⟨"Apple".data, ⟨150, 2⟩, 2, ⟨300, 2⟩⟩], ⟨300, 2⟩) ∧
    missingOf ["Product".data, "Price".data, "Qty".data] = [] ∧
    read_csv_rows "Product,Price,Qty\nApple,1.50,2".data =
      .error (.cli .emptyProduct) := by
  refine ⟨by decide, by decide, by decide⟩

/-- C5 counterexample: a template whose only `total`-like placeholder is
the field `subtotal` does *not* satisfy the `total` check — the pattern's
`\b` before the (optionally qualified) name rejects a match inside the
identifier `subtotal` — so `ensure_placeholders` raises
`MissingPlaceholderError` for `total`, refuting the claim that such a
template satisfies the check. -/
theorem ensure_placeholders_subtotal_not_matched :
    searchPlaceholder "total".data
      "\x7b\x7b product \x7d\x7d \x7b\x7b price \x7d\x7d \x7b\x7b qty \x7d\x7d \x7b\x7b subtotal \x7d\x7d".data = false ∧
    ensure_placeholders "\x7b\x7b product \x7d\x7d \x7b\x7b price \x7d\x7d \x7b\x7b qty \x7d\x7d \x7b\x7b subtotal \x7d\x7d".data =
      .error (.missingPlaceholder "total".data) := by
  refine ⟨by decide, by decide⟩

/-- C5 (amended): the placeholder check for `total` requires the token to
be preceded by a word boundary (optionally with one dotted qualifier):
`{{ total }}` and `{{ sub.total }}` satisfy it, while a template whose
only candidate is the unqualified identifier `subtotal` fails with
`MissingPlaceholderError` naming `total`. -/
theorem ensure_placeholders_word_boundary :
    ensure_placeholders "\x7b\x7b product \x7d\x7d \x7b\x7b price \x7d\x7d \x7b\x7b qty \x7d\x7d \x7b\x7b total \x7d\x7d".data = .ok () ∧
    ensure_placeholders "\x7b\x7b product \x7d\x7d \x7b\x7b price \x7d\x7d \x7b\x7b qty \x7d\x7d \x7b\x7b sub.total \x7d\x7d".data = .ok () ∧
    ensure_placeholders
        "\x7b\x7b items \x7d\x7d \x7b\x7b product \x7d\x7d \x7b\x7b price \x7d\x7d \x7b\x7b qty \x7d\x7d \x7b\x7b subtotal \x7d\x7d \x7b\x7b x \x7d\x7d".data =
      .error (.missingPlaceholder "total".data) := by
  refine ⟨by decide, by decide, by decide⟩

/-- C9 counterexample: a structurally short row (2 cells under a 3-column
header) whose *present* price cell is `"NaN"` makes the loader's row
processing crash with an uncaught `InvalidOperation` — a non-domain
error — refuting "the loader never crashes with a non-domain error on
structurally short rows". -/
theorem processRow_short_row_escape :
    (csvParseLine ',' "Apple,NaN".data).length <
      ["product".data, "price".data, "qty".data].length ∧
    processRow ["product".data, "price".data, "qty".data]
        (csvParseLine ',' "Apple,NaN".data) =
      .error (.uncaught .invalidOperation) := by
  refine ⟨by decide, by decide⟩

/-- C9 (amended): a price or qty cell that is absent (read as `None`) or
empty is coerced to `""` by its parser, which raises the domain
`FormatError` "not specified"; in particular a short row whose price cell
is missing always yields that domain error.  (A short row can still crash
with a non-domain error, but only when a *present* earlier field itself
triggers one, as in the counterexample.) -/
theorem short_row_missing_cells :
    parse_price none = .error (.cli .priceNotSpecified) ∧
    parse_qty none = .error (.cli .qtyNotSpecified) ∧
    (∀ fn row, (trimL (((dictGet fn row productKey).join).getD [])) ≠ [] →
      (dictGetDefault fn row priceKey = none ∨
       dictGetDefault fn row priceKey = some []) →
      processRow fn row = .error (.cli .priceNotSpecified)) := by
  refine ⟨by decide, by decide, ?_⟩
  intro fn row hprod hprice
  have hpp : parse_price (dictGetDefault fn row priceKey) =
      .error (.cli .priceNotSpecified) := by
    rcases hprice with h | h <;> rw [h] <;> decide
  simp [processRow, hpp]
  simpa [Option.join] using hprod

/-- C9 witness: a one-cell row under the three-column header has its
price cell read as `None` and fails with the "price not specified"
`FormatError`. -/
theorem short_row_missing_cells_witness :
    processRow ["product".data, "price".data, "qty".data] [['A']] =
      .error (.cli .priceNotSpecified) :=
  short_row_missing_cells.2.2 ["product".data, "price".data, "qty".data] [['A']]
    (by decide) (Or.inl (by decide))

/-- C6: with a detected delimiter and a non-empty header row, any
missing required columns make the loader fail with `MissingColumnsError`
naming exactly the missing ones, in alphabetical (code-point) order. -/
theorem read_csv_rows_missing_columns (content : PyStr) (d : Char)
    (fn : List PyStr) (rest : List (List PyStr))
    (h0 : trimL content ≠ [])
    (h1 : detect_delimiter content = some d)
    (h2 : (splitCh '\n' content).map (csvParseLine d) = fn :: rest)
    (h3 : fn ≠ [])
    (h4 : missingOf fn ≠ []) :
    read_csv_rows content = .error (.cli (.missingColumns (missingOf fn))) ∧
    (missingOf fn).Sorted strLt ∧
    (∀ c, c ∈ missingOf fn ↔ (c ∈ requiredCols ∧ c ∉ headersOf fn)) := by
  refine ⟨?_, ?_, ?_⟩
  · simp [read_csv_rows, h0, h1, h2, loadRows, h3, h4]
  · have hs : requiredCols.Sorted strLt := by decide
    exact hs.sublist (List.filter_sublist _)
  · intro c
    simp [missingOf, List.mem_filter, List.elem_iff]

/-- C6 witness: a CSV whose header lacks only `qty` fails naming exactly
`["qty"]`. -/
theorem read_csv_rows_missing_columns_witness :
    read_csv_rows "product,price\nApple,1.50".data =
      .error (.cli (.missingColumns (missingOf ["product".data, "price".data]))) ∧
    (missingOf ["product".data, "price".data]).Sorted strLt ∧
    (∀ c, c ∈ missingOf ["product".data, "price".data] ↔
      (c ∈ requiredCols ∧ c ∉ headersOf ["product".data, "price".data])) :=
  read_csv_rows_missing_columns "product,price\nApple,1.50".data ','
    ["product".data, "price".data] [["Apple".data, "1.50".data]]
    (by decide) (by decide) (by decide) (by decide) (by decide)

/-- C7: a CSV whose rows pass the header checks but whose data rows are
all blank fails with `NoDataError`; equivalently, a successfully loaded
receipt never has an empty item list. -/
theorem read_csv_rows_no_data :
    (∀ (content : PyStr) (d : Char) (fn : List PyStr) (rest : List (List PyStr)),
      trimL content ≠ [] →
      detect_delimiter content = some d →
      (splitCh '\n' content).map (csvParseLine d) = fn :: rest →
      fn ≠ [] →
      missingOf fn = [] →
      rest.filter (fun r => !r.isEmpty) = [] →
      read_csv_rows content = .error (.cli .noData)) ∧
    (∀ (content : PyStr) (items : List Item) (t : Dec),
      read_csv_rows content = .ok (items, t) → items ≠ []) := by
  constructor
  · intro content d fn rest h0 h1 h2 h3 h4 h5
    simp [read_csv_rows, h0, h1, h2, loadRows, h3, h4, h5, processRows]
  · intro content items t h
    unfold read_csv_rows at h
    split at h
    · cases h
    · split at h
      · cases h
      · unfold loadRows at h
        split at h
        · cases h
        · split at h
          · cases h
          · split at h
            · cases h
            · split at h
              · cases h
              · split at h
                · cases h
                · next hne =>
                  split at h
                  · cases h
                  · cases h
                    simpa using hne

/-- C7 witness: a header-only CSV (no data rows) fails with `NoDataError`,
and the loaded two-item example has a non-empty item list. -/
theorem read_csv_rows_no_data_witness :
    read_csv_rows "product,price,qty\n".data = .error (.cli .noData) ∧
    ([(⟨"Apple".data, ⟨150, 2⟩, 2, ⟨300, 2⟩⟩ : Item),
      ⟨"Bread".data, ⟨99, 2⟩, 3, ⟨297, 2⟩⟩] : List Item) ≠ [] :=
  ⟨read_csv_rows_no_data.1 "product,price,qty\n".data ','
     ["product".data, "price".data, "qty".data] [[]]
     (by decide) (by decide) (by decide) (by decide) (by decide) (by decide),
   read_csv_rows_no_data.2 "product,price,qty\nApple,1.50,2\nBread,0.99,3".data
     _ ⟨597, 2⟩ (by decide)⟩

/-! ## Delimiter invariance (C8) -/

theorem lines_of_csvText {d : Char} {table : List (List PyStr)}
    (hne : table ≠ []) (hd : d ≠ '\n')
    (hfree : ∀ l ∈ table, ∀ f ∈ l, d ∉ f ∧ '\n' ∉ f) :
    splitCh '\n' (csvText d table) = table.map (joinCh d) := by
  unfold csvText
  refine splitCh_joinCh (by simpa using hne) ?_
  intro line hline
  rcases List.mem_map.mp hline with ⟨l, hl, rfl⟩
  exact not_mem_joinCh (fun he => hd he.symm)
    (fun f hf => ((hfree l hl) f hf).2)

theorem rows_of_csvText {d : Char} {table : List (List PyStr)} {n : ℕ}
    (hne : table ≠ []) (hlen : ∀ l ∈ table, l.length = n) (h2 : 2 ≤ n)
    (hd : d ≠ '\n')
    (hfree : ∀ l ∈ table, ∀ f ∈ l, d ∉ f ∧ '\n' ∉ f) :
    (splitCh '\n' (csvText d table)).map (csvParseLine d) = table := by
  rw [lines_of_csvText hne hd hfree, List.map_map]
  have : ∀ l ∈ table, (csvParseLine d ∘ joinCh d) l = id l := by
    intro l hl
    have hlen2 : 2 ≤ l.length := hlen l hl ▸ h2
    have hdin : d ∈ joinCh d l := mem_joinCh_self hlen2
    have hnn : joinCh d l ≠ [] := fun he => by rw [he] at hdin; cases hdin
    simp only [Function.comp, csvParseLine, id]
    rw [if_neg (by simpa using hnn)]
    exact splitCh_joinCh (by rintro rfl; simp at hlen2)
      (fun f hf => ((hfree l hl) f hf).1)
  rw [List.map_congr_left this, List.map_id]

theorem consistent_csvText {d : Char} {table : List (List PyStr)} {n : ℕ}
    (hlen : ∀ l ∈ table, l.length = n) (h2 : 2 ≤ n)
    (hfree : ∀ l ∈ table, ∀ f ∈ l, d ∉ f) :
    ∀ l ∈ table.map (joinCh d), countCh d l = n - 1 := by
  intro line hline
  rcases List.mem_map.mp hline with ⟨l, hl, rfl⟩
  rw [countCh_joinCh (fun f hf => hfree l hl f hf)
    (by rintro rfl; have := hlen [] hl; simp at this; omega), hlen l hl]

theorem detect_csvText {d e : Char} {table : List (List PyStr)} {n : ℕ}
    (hne : table ≠ []) (hlen : ∀ l ∈ table, l.length = n) (h2 : 2 ≤ n)
    (hd : d = ',' ∨ (d = ';' ∧ e = ',')) (hde : e ≠ d) (hen : e ≠ '\n') (hdn : d ≠ '\n')
    (hfree : ∀ l ∈ table, ∀ f ∈ l, d ∉ f ∧ e ∉ f ∧ '\n' ∉ f) :
    detect_delimiter (csvText d table) = some d := by
  have hlines : splitCh '\n' (csvText d table) = table.map (joinCh d) :=
    lines_of_csvText hne hdn (fun l hl => fun f hf => ⟨(hfree l hl f hf).1, (hfree l hl f hf).2.2⟩)
  have hnonempty : ∀ l ∈ table.map (joinCh d), (!l.isEmpty) = true := by
    intro line hline
    rcases List.mem_map.mp hline with ⟨l, hl, rfl⟩
    have hdin : d ∈ joinCh d l := mem_joinCh_self (hlen l hl ▸ h2)
    cases hjoin : joinCh d l with
    | nil => rw [hjoin] at hdin; cases hdin
    | cons a as => rfl
  have hfilter : (table.map (joinCh d)).filter (fun l => !l.isEmpty) = table.map (joinCh d) :=
    List.filter_eq_self.mpr hnonempty
  have hcounts : ∀ l ∈ table.map (joinCh d), countCh d l = n - 1 :=
    consistent_csvText hlen h2 (fun l hl f hf => (hfree l hl f hf).1)
  have hzero : ∀ l ∈ table.map (joinCh d), countCh e l = 0 := by
    intro line hline
    rcases List.mem_map.mp hline with ⟨l, hl, rfl⟩
    exact countCh_eq_zero (not_mem_joinCh hde (fun f hf => (hfree l hl f hf).2.1))
  obtain ⟨t0, ts, rfl⟩ := List.exists_cons_of_ne_nil hne
  have hconsist : consistentDelim d ((t0 :: ts).map (joinCh d)) = true := by
    simp only [List.map_cons, consistentDelim]
    have h0 : countCh d (joinCh d t0) = n - 1 :=
      hcounts _ (List.mem_map_of_mem _ (List.mem_cons_self _ _))
    rw [h0]
    refine (Bool.and_eq_true _ _).mpr ⟨by simp; omega, ?_⟩
    rw [List.all_eq_true]
    intro m hm
    have : countCh d m = n - 1 :=
      hcounts m (List.mem_map.mpr (by
        rcases List.mem_map.mp hm with ⟨l, hl, rfl⟩
        exact ⟨l, List.mem_cons_of_mem _ hl, rfl⟩))
    simp [this]
  have hinconsist : ∀ c, c ≠ d → (∀ l ∈ (t0 :: ts).map (joinCh d), countCh c l = 0) →
      consistentDelim c ((t0 :: ts).map (joinCh d)) = false := by
    intro c _ hz
    simp only [List.map_cons, consistentDelim]
    have h0 : countCh c (joinCh d t0) = 0 :=
      hz _ (List.mem_map_of_mem _ (List.mem_cons_self _ _))
    rw [h0]
    simp
  simp only [detect_delimiter]
  rw [hlines, hfilter]
  rcases hd with rfl | ⟨rfl, rfl⟩
  · rw [hconsist]
    simp
  · have hcomma : consistentDelim ',' ((t0 :: ts).map (joinCh ';')) = false :=
      hinconsist ',' hde hzero
    rw [hcomma, hconsist]
    simp

theorem trim_csvText_ne_nil {d : Char} {table : List (List PyStr)} {n : ℕ}
    (hne : table ≠ []) (hlen : ∀ l ∈ table, l.length = n) (h2 : 2 ≤ n)
    (hsp : pyIsSpace d = false) :
    trimL (csvText d table) ≠ [] := by
  obtain ⟨t0, ts, rfl⟩ := List.exists_cons_of_ne_nil hne
  have hdin0 : d ∈ joinCh d t0 :=
    mem_joinCh_self (hlen t0 (List.mem_cons_self _ _) ▸ h2)
  have hdin : d ∈ csvText d (t0 :: ts) := by
    unfold csvText
    rw [List.map_cons]
    exact mem_joinCh_head hdin0
  exact trimL_ne_nil hdin hsp

/-- C8: replacing the comma delimiter by a semicolon — same table of
fields, fields free of both delimiters and of newlines — yields the
identical loader outcome, item list and total included. -/
theorem read_csv_rows_delimiter_invariance (table : List (List PyStr)) (n : ℕ)
    (hne : table ≠ [])
    (hlen : ∀ l ∈ table, l.length = n)
    (h2 : 2 ≤ n)
    (hfree : ∀ l ∈ table, ∀ f ∈ l, ',' ∉ f ∧ ';' ∉ f ∧ '\n' ∉ f) :
    read_csv_rows (csvText ',' table) = read_csv_rows (csvText ';' table) := by
  have hfree' : ∀ l ∈ table, ∀ f ∈ l, ';' ∉ f ∧ ',' ∉ f ∧ '\n' ∉ f :=
    fun l hl f hf => ⟨(hfree l hl f hf).2.1, (hfree l hl f hf).1, (hfree l hl f hf).2.2⟩
  have hc : trimL (csvText ',' table) ≠ [] :=
    trim_csvText_ne_nil hne hlen h2 (by decide)
  have hs : trimL (csvText ';' table) ≠ [] :=
    trim_csvText_ne_nil hne hlen h2 (by decide)
  have dc : detect_delimiter (csvText ',' table) = some ',' :=
    detect_csvText hne hlen h2 (Or.inl rfl) (by decide) (by decide) (by decide)
      (fun l hl f hf => ⟨(hfree l hl f hf).1, (hfree l hl f hf).2.1, (hfree l hl f hf).2.2⟩)
  have ds : detect_delimiter (csvText ';' table) = some ';' :=
    detect_csvText hne hlen h2 (Or.inr ⟨rfl, rfl⟩) (by decide) (by decide) (by decide) hfree'
  have rc : (splitCh '\n' (csvText ',' table)).map (csvParseLine ',') = table :=
    rows_of_csvText hne hlen h2 (by decide)
      (fun l hl f hf => ⟨(hfree l hl f hf).1, (hfree l hl f hf).2.2⟩)
  have rs : (splitCh '\n' (csvText ';' table)).map (csvParseLine ';') = table :=
    rows_of_csvText hne hlen h2 (by decide)
      (fun l hl f hf => ⟨(hfree l hl f hf).2.1, (hfree l hl f hf).2.2⟩)
  simp [read_csv_rows, hc, hs, dc, ds, rc, rs]

/-- C8 witness: the spec's end-to-end example and its semicolon twin load
to the identical item list and total `5.97`. -/
theorem read_csv_rows_delimiter_invariance_witness :
    read_csv_rows "product,price,qty\nApple,1.50,2\nBread,0.99,3".data =
      read_csv_rows "product;price;qty\nApple;1.50;2\nBread;0.99;3".data ∧
    read_csv_rows "product;price;qty\nApple;1.50;2\nBread;0.99;3".data =
      .ok ([⟨"Apple".data, ⟨150, 2⟩, 2, ⟨300, 2⟩⟩,
            ⟨"Bread".data, ⟨99, 2⟩, 3, ⟨297, 2⟩⟩], ⟨597, 2⟩) := by
  constructor
  · have h := read_csv_rows_delimiter_invariance
      [["product".data, "price".data, "qty".data],
       ["Apple".data, "1.50".data, "2".data],
       ["Bread".data, "0.99".data, "3".data]] 3
      (by decide) (by decide) (by decide) (by decide)
    have e1 : csvText ','
        [["product".data, "price".data, "qty".data],
         ["Apple".data, "1.50".data, "2".data],
         ["Bread".data, "0.99".data, "3".data]] =
        "product,price,qty\nApple,1.50,2\nBread,0.99,3".data := by decide
    have e2 : csvText ';'
        [["product".data, "price".data, "qty".data],
         ["Apple".data, "1.50".data, "2".data],
         ["Bread".data, "0.99".data, "3".data]] =
        "product;price;qty\nApple;1.50;2\nBread;0.99;3".data := by decide
    rw [e1, e2] at h
    exact h
  · decide

end Csv2Pdf
